import Mathlib

/-!
Shallow embedding of the booking-ledger / pricing / voucher / aggregation core
of `hearmedia_flow_mvp_starter_react-2.jsx` (the "Øvingsrommet" room-booking
MVP).

Conventions of the embedding:

* JS numbers are modelled as `ℚ` (prices, multipliers, energy coefficients)
  or as `Nat` / `Int` where the source only ever holds integers.
* JS `Math.round` is `round : ℚ → ℤ`; both round half toward positive
  infinity (`round q = ⌊q + 1/2⌋`).
* ISO date strings `"YYYY-MM-DD"` are modelled as `Date` year/month/day
  triples.  For zero-padded ISO strings, JS lexicographic string comparison
  (`d <= endISO`) coincides with the lexicographic order `dateLexLE` on the
  triples.  JS `Date` UTC arithmetic implements the proleptic Gregorian
  calendar; it is modelled by `nextDate` / `prevDate` / `dayIndex` /
  `dayOfWeek` below.
* JS objects used as keyed maps (the nested local booking store
  `bookings[date][roomId][hour]`, the range maps) are modelled as
  association lists keyed by `(date, roomId, hour)` triples; JS object keys
  are unique, so nested `Object.keys` leaf counting corresponds to list
  length.
-/

-- ===== Config constants (source lines 42-44, 59) =====

def OPEN_HOUR : Nat := 10

def CLOSE_HOUR : Nat := 23

def HOURS_PER_DAY : Nat := CLOSE_HOUR - OPEN_HOUR

/-- `RATECARD = { solo: 199, band: 399, preprod: 799 }` (source line 59). -/
def RATECARD : List (String × ℚ) := [("solo", 199), ("band", 399), ("preprod", 799)]

/-- Property lookup on a JS object modelled as an association list:
`obj[key]` yields `some value` or `none` (JS `undefined`). -/
def lookupQ (l : List (String × ℚ)) (k : String) : Option ℚ :=
  (l.find? (fun p => p.1 = k)).map (fun p => p.2)

-- ===== Pricing (source lines 116-120) =====

/-- The `pricing` configuration object: `{ base: {type: price}, groups: {code: mult} }`. -/
structure Pricing where
  base : List (String × ℚ)
  groups : List (String × ℚ)
deriving DecidableEq, Repr

/-- `computePrice(roomType, pricing, groupCode)` (source lines 116-120):
`base = pricing?.base?.[roomType] ?? RATECARD[roomType] ?? 0`,
`mult = pricing?.groups?.[groupCode||'standard'] ?? 1.0`,
result `Math.round(base * mult)`.  A falsy (empty) group code is replaced by
`"standard"` before the lookup, mirroring `groupCode||'standard'`. -/
def computePrice (roomType : String) (pricing : Pricing) (groupCode : String) : ℤ :=
  let base := (lookupQ pricing.base roomType).getD ((lookupQ RATECARD roomType).getD 0)
  let mult := (lookupQ pricing.groups (if groupCode = "" then "standard" else groupCode)).getD 1
  round (base * mult)

/-- The price exactly as claim C2's sentence states it: base is the
*configured* base price, defaulting to 0 when absent from the configuration;
multiplier is the configured multiplier for the given group code, defaulting
to 1.0 when absent.  (No rate-card fallback, no empty-code normalisation.) -/
def specPriceC2 (roomType : String) (pricing : Pricing) (groupCode : String) : ℤ :=
  round ((lookupQ pricing.base roomType).getD 0 * (lookupQ pricing.groups groupCode).getD 1)

-- ===== Booking mode (source lines 109-113) =====

/-- `determineBookingMode({ voucherRequired, bookForOthers })` (source 109-113). -/
def determineBookingMode (voucherRequired : Bool) (bookForOthers : Bool) : String :=
  if bookForOthers then "external"
  else if voucherRequired then "voucher"
  else "open"

-- ===== Voucher ledger (source lines 104-106) =====

/-- A voucher: `{ id, partner, slots }`. -/
structure Voucher where
  id : String
  partner : String
  slots : Int
deriving DecidableEq, Repr

/-- `checkVoucherAvailable(vouchers, id)` (source line 104). -/
def checkVoucherAvailable (vouchers : List Voucher) (id : String) : Bool :=
  match vouchers.find? (fun x => x.id = id) with
  | some v => decide (0 < v.slots)
  | none => false

/-- `adjustVoucherSlots(vouchers, id, delta)` (source line 105):
`vouchers.map(v => v.id===id ? {...v, slots: Math.max(0,(v.slots||0)+delta)} : v)`.
For a number-valued `slots` field, `v.slots||0` equals `v.slots`. -/
def adjustVoucherSlots (vouchers : List Voucher) (id : String) (delta : Int) : List Voucher :=
  vouchers.map (fun v => if v.id = id then { v with slots := max 0 (v.slots + delta) } else v)

/-- `findVoucherByPartner(vouchers, partner)` (source line 106). -/
def findVoucherByPartner (vouchers : List Voucher) (partner : String) : Option Voucher :=
  vouchers.find? (fun v => v.partner = partner)

-- ===== Dates (source lines 81-101) =====

/-- An ISO `"YYYY-MM-DD"` date string, modelled as its year/month/day
digits.  For zero-padded ISO strings, lexicographic string comparison
coincides with `dateLexLE` below. -/
structure Date where
  y : Nat
  m : Nat
  d : Nat
deriving DecidableEq, Repr

/-- Gregorian leap-year rule, as implemented by the JS `Date` object used by
`parseISO` / `addDaysISO` (proleptic Gregorian calendar, UTC). -/
def isLeap (y : Nat) : Bool := (y % 4 == 0 && y % 100 != 0) || y % 400 == 0

def daysInMonth (y m : Nat) : Nat :=
  if m = 2 then (if isLeap y then 29 else 28)
  else if m = 4 ∨ m = 6 ∨ m = 9 ∨ m = 11 then 30
  else 31

/-- Days from 1 January to the first day of month `m` of year `y`. -/
def daysBeforeMonth (y m : Nat) : Nat :=
  let l := if isLeap y then 1 else 0
  match m with
  | 1 => 0
  | 2 => 31
  | 3 => 59 + l
  | 4 => 90 + l
  | 5 => 120 + l
  | 6 => 151 + l
  | 7 => 181 + l
  | 8 => 212 + l
  | 9 => 243 + l
  | 10 => 273 + l
  | 11 => 304 + l
  | 12 => 334 + l
  | _ => 0

/-- Number of leap years in `[0, y)` (year 0 itself is leap). -/
def leapsBefore (y : Nat) : Nat := ((y + 3) / 4 + (y + 399) / 400) - (y + 99) / 100

/-- Days in all years `[0, y)`. -/
def daysBeforeYear (y : Nat) : Nat := 365 * y + leapsBefore y

/-- Linear day number of a date (days since 0000-01-01). -/
def dayIndex (dt : Date) : Nat := daysBeforeYear dt.y + daysBeforeMonth dt.y dt.m + (dt.d - 1)

/-- A well-formed calendar date (year at least 1). -/
def Date.Valid (dt : Date) : Prop :=
  1 ≤ dt.y ∧ 1 ≤ dt.m ∧ dt.m ≤ 12 ∧ 1 ≤ dt.d ∧ dt.d ≤ daysInMonth dt.y dt.m

instance : DecidablePred Date.Valid := fun dt => by unfold Date.Valid; infer_instance

/-- Lexicographic date order: this is exactly the JS string comparison
`dateA <= dateB` on zero-padded ISO strings. -/
def dateLexLE (a b : Date) : Prop :=
  a.y < b.y ∨ (a.y = b.y ∧ (a.m < b.m ∨ (a.m = b.m ∧ a.d ≤ b.d)))

instance (a b : Date) : Decidable (dateLexLE a b) := by unfold dateLexLE; infer_instance

/-- Calendar successor (JS `dt.setUTCDate(dt.getUTCDate()+1)`). -/
def nextDate (dt : Date) : Date :=
  if dt.d < daysInMonth dt.y dt.m then ⟨dt.y, dt.m, dt.d + 1⟩
  else if dt.m < 12 then ⟨dt.y, dt.m + 1, 1⟩
  else ⟨dt.y + 1, 1, 1⟩

/-- Calendar predecessor (JS `dt.setUTCDate(dt.getUTCDate()-1)`). -/
def prevDate (dt : Date) : Date :=
  if 1 < dt.d then ⟨dt.y, dt.m, dt.d - 1⟩
  else if 1 < dt.m then ⟨dt.y, dt.m - 1, daysInMonth dt.y (dt.m - 1)⟩
  else ⟨dt.y - 1, 12, 31⟩

/-- `addDaysISO(s, days)` (source line 92): calendar-shift a date by a signed
number of days. -/
def addDaysISO (dt : Date) (days : Int) : Date :=
  if 0 ≤ days then nextDate^[days.toNat] dt else prevDate^[(-days).toNat] dt

/-- JS `getUTCDay()`: 0 = Sunday .. 6 = Saturday.  Modelled from the day
index; 1970-01-01 (`dayIndex = 719528`) is a Thursday (4). -/
def dayOfWeek (dt : Date) : Nat := (dayIndex dt + 6) % 7

/-- `startOfWeekISO(s)` (source lines 93-97): back up to the Monday of the
week containing the date. -/
def startOfWeekISO (dt : Date) : Date :=
  let day := dayOfWeek dt
  let diff : Int := if day = 0 then -6 else 1 - (day : Int)
  addDaysISO dt diff

/-- `endOfWeekISO(s)` (source line 98). -/
def endOfWeekISO (dt : Date) : Date := addDaysISO (startOfWeekISO dt) 6

/-- Fuelled rendition of the `while (d <= endISO)` loop of `eachDateISO`
(source line 101); `eachDateISO` supplies enough fuel for the whole range. -/
def eachDateAux : Nat → Date → Date → List Date
  | 0, _, _ => []
  | fuel + 1, d, e => if dateLexLE d e then d :: eachDateAux fuel (nextDate d) e else []

/-- `eachDateISO(startISO, endISO)` (source line 101). -/
def eachDateISO (s e : Date) : List Date := eachDateAux (dayIndex e + 1 - dayIndex s) s e

-- ===== Booking store (source lines 849-850) =====

/-- A booking row (local-fallback shape, source line 226 and the DB row
shape): `{date, roomId, hour, type, roomName, voucherPartner, bookedFor,
groupCode, priceNOK, createdBy}`. -/
structure Booking where
  date : Date
  roomId : String
  hour : Nat
  type : String
  roomName : String
  voucherPartner : Option String
  bookedFor : Option String
  groupCode : String
  priceNOK : Option ℚ
  createdBy : String
deriving DecidableEq, Repr

/-- The nested JS map `bookings[date][roomId][hour] = booking`, flattened to
an association list keyed by the `(date, roomId, hour)` slot triple (JS
object keys are unique). -/
abbrev Store := List ((Date × String × Nat) × Booking)

/-- `bookings[date]?.[roomId]?.[hour]` — slot lookup. -/
def getBooking (s : Store) (d : Date) (r : String) (h : Nat) : Option Booking :=
  (s.find? (fun e => e.1 = (d, r, h))).map (fun e => e.2)

/-- `addBooking(bookings, b)` (source line 849): if the slot already holds a
booking, return the original store unchanged; otherwise insert `b` at its
`(date, roomId, hour)` key. -/
def addBooking (s : Store) (b : Booking) : Store :=
  if (getBooking s b.date b.roomId b.hour).isSome then s
  else ((b.date, b.roomId, b.hour), b) :: s

/-- `removeBooking(bookings, b)` (source line 850): if no booking exists at
the key, return the store unchanged; otherwise delete that key. -/
def removeBooking (s : Store) (d : Date) (r : String) (h : Nat) : Store :=
  if (getBooking s d r h).isNone then s
  else s.eraseP (fun e => e.1 = (d, r, h))

/-- Slot-uniqueness invariant: the `(date, roomId, hour)` keys are pairwise
distinct. -/
def SlotUnique (s : Store) : Prop := (s.map (fun e => e.1)).Nodup

/-- Stores reachable from the empty store through `addBooking` /
`removeBooking`. -/
inductive ReachableStore : Store → Prop
  | empty : ReachableStore []
  | add (s : Store) (b : Booking) : ReachableStore s → ReachableStore (addBooking s b)
  | remove (s : Store) (d : Date) (r : String) (h : Nat) :
      ReachableStore s → ReachableStore (removeBooking s d r h)

-- ===== Local delete handler, voucher side (source lines 266-277) =====

/-- The voucher-ledger effect of `handleDelete` in local-fallback mode
(source lines 268-272): read the stored cell; if it holds a truthy
`voucherPartner` and a voucher with that partner exists, credit that voucher
by `+1`; otherwise leave the ledger alone. -/
def handleDeleteLocalVouchers (bookings : Store) (vouchers : List Voucher)
    (d : Date) (r : String) (h : Nat) : List Voucher :=
  match getBooking bookings d r h with
  | some cell =>
    match cell.voucherPartner with
    | some partner =>
      if partner = "" then vouchers
      else
        match findVoucherByPartner vouchers partner with
        | some v => adjustVoucherSlots vouchers v.id 1
        | none => vouchers
    | none => vouchers
  | none => vouchers

/-- `handleDelete` in local-fallback mode (source lines 266-277): the new
store and the new voucher ledger. -/
def handleDeleteLocal (bookings : Store) (vouchers : List Voucher)
    (d : Date) (r : String) (h : Nat) : Store × List Voucher :=
  (removeBooking bookings d r h, handleDeleteLocalVouchers bookings vouchers d r h)

-- ===== Range aggregation (source lines 804-822) =====

/-- A room: `{ id, name, type }` (source lines 47-56). -/
structure Room where
  id : String
  name : String
  type : String
deriving DecidableEq, Repr

/-- `filterRangeLocal(store, startISO, endISO)` (source lines 804-810): keep
the store's date keys `d` with `d >= startISO && d <= endISO` (JS string
comparison = `dateLexLE`). -/
def filterRangeLocal (store : Store) (s e : Date) : Store :=
  store.filter (fun x => decide (dateLexLE s x.1.1) && decide (dateLexLE x.1.1 e))

/-- Result shape of `computeUtilizationRange`. -/
structure UtilStats where
  utilization : ℚ
  booked : Nat
  total : Nat
deriving Repr

/-- `computeUtilizationRange(rangeMap, rooms, startISO, endISO)` (source
lines 812-822): `days` from `eachDateISO`, `total = rooms.length ×
HOURS_PER_DAY × days`, `booked` = the number of `(date, room, hour)` leaf
keys in the supplied map (all of them — the map is *not* filtered by the
interval here), `utilization = total ? booked/total*100 : 0`. -/
def computeUtilizationRange (rangeMap : Store) (rooms : List Room) (s e : Date) : UtilStats :=
  let days := (eachDateISO s e).length
  let total := rooms.length * HOURS_PER_DAY * days
  let booked := rangeMap.length
  let utilization : ℚ := if total = 0 then 0 else (booked : ℚ) / (total : ℚ) * 100
  ⟨utilization, booked, total⟩

-- ===== Daily stats (source lines 825-846) =====

/-- `hoursArray()` (source line 85): `[OPEN_HOUR, …, CLOSE_HOUR - 1]`. -/
def hoursArray : List Nat := (List.range HOURS_PER_DAY).map (fun i => OPEN_HOUR + i)

/-- The `energy` configuration `{ solo, band, preprod, optimizationFactor }`
(source line 72). -/
structure Energy where
  solo : ℚ
  band : ℚ
  preprod : ℚ
  optimizationFactor : ℚ
deriving DecidableEq, Repr

/-- Result shape of `computeStats`. -/
structure Stats where
  utilization : ℚ
  revenueToday : ℚ
  kwhPerBookedHour : ℚ
  kwhOptimizedPerHour : ℚ
  energy : Energy
  todayList : List Booking
deriving Repr

/-- Revenue contribution of one booked slot (source line 831):
`typeof item.priceNOK === 'number' ? item.priceNOK : (RATECARD[room.type]||0)`
— the fallback uses the *room's* current type from the rooms list. -/
def slotPrice (room : Room) (item : Booking) : ℚ :=
  match item.priceNOK with
  | some p => p
  | none => (lookupQ RATECARD room.type).getD 0

/-- Count of bookings of a given `type` in a list — the
`reduce((acc, b) => acc[b.type] = (acc[b.type]||0) + 1)` pattern of source
lines 834 and 842. -/
def typeCount (l : List Booking) (t : String) : Nat := (l.filter (fun b => b.type = t)).length

/-- `computeStats({bookings, dateISO, rooms, energy})` (source lines
825-839); the nested `for room / for h` loops accumulating
`(bookedCount, revenue, todayList)` are rendered as `foldl`s. -/
def computeStats (bookings : Store) (dateISO : Date) (rooms : List Room) (energy : Energy) :
    Stats :=
  let hours := hoursArray
  let totalSlots := rooms.length * hours.length
  let acc :=
    rooms.foldl (fun acc room =>
      hours.foldl (fun acc h =>
        match getBooking bookings dateISO room.id h with
        | some item => (acc.1 + 1, acc.2.1 + slotPrice room item, acc.2.2 ++ [item])
        | none => acc) acc)
      ((0 : Nat), (0 : ℚ), ([] : List Booking))
  let bookedCount := acc.1
  let revenue := acc.2.1
  let todayList := acc.2.2
  let utilization : ℚ := if totalSlots = 0 then 0 else (bookedCount : ℚ) / (totalSlots : ℚ) * 100
  let totalBooked : ℚ := if todayList.length = 0 then 1 else (todayList.length : ℚ)
  let baseline :=
    ((typeCount todayList "solo" : ℚ) * energy.solo
      + (typeCount todayList "band" : ℚ) * energy.band
      + (typeCount todayList "preprod" : ℚ) * energy.preprod) / totalBooked
  { utilization := utilization, revenueToday := revenue, kwhPerBookedHour := baseline,
    kwhOptimizedPerHour := baseline * energy.optimizationFactor, energy := energy,
    todayList := todayList }

/-- `computeBaselineEnergy(stats)` (source lines 841-846): the weighted
baseline recomputed from `stats.todayList`, then
`base || unweightedAverage` — JS `||` falls through exactly when `base`
is `0`. -/
def computeBaselineEnergy (stats : Stats) : ℚ :=
  let total : ℚ := if stats.todayList.length = 0 then 1 else (stats.todayList.length : ℚ)
  let base :=
    ((typeCount stats.todayList "solo" : ℚ) * stats.energy.solo
      + (typeCount stats.todayList "band" : ℚ) * stats.energy.band
      + (typeCount stats.todayList "preprod" : ℚ) * stats.energy.preprod) / total
  if base = 0 then (stats.energy.solo + stats.energy.band + stats.energy.preprod) / 3 else base

/-- The daily energy baseline exactly as claim C8's first sentence states
it: the per-room-type coefficients weighted by the day's per-type booked
slot counts (dividing by the number of booked slots). -/
def weightedBaseline (stats : Stats) : ℚ :=
  ((typeCount stats.todayList "solo" : ℚ) * stats.energy.solo
    + (typeCount stats.todayList "band" : ℚ) * stats.energy.band
    + (typeCount stats.todayList "preprod" : ℚ) * stats.energy.preprod)
    / (stats.todayList.length : ℚ)

/-- The booked slots of one day, as claim C7 speaks of them: every room-hour
cell of the day grid holding a booking, paired with its room. -/
def daySlots (bookings : Store) (d : Date) (rooms : List Room) : List (Room × Booking) :=
  rooms.flatMap (fun room =>
    hoursArray.filterMap (fun h =>
      (getBooking bookings d room.id h).map (fun item => (room, item))))

/-- A sample booking used by concrete witnesses. -/
def sampleBooking : Booking :=
  { date := ⟨2025, 9, 15⟩, roomId := "s1", hour := 10, type := "solo", roomName := "Solo 1",
    voucherPartner := none, bookedFor := none, groupCode := "standard", priceNOK := none,
    createdBy := "local" }

-- ===== Claim theorems (pricing / mode / ledger) =====

/-- A successful `lookupQ` in a pointwise non-negative table returns a
non-negative value. -/
theorem lookupQ_nonneg {l : List (String × ℚ)} (hl : ∀ x ∈ l, 0 ≤ x.2)
    {k : String} {q : ℚ} (h : lookupQ l k = some q) : 0 ≤ q := by
  unfold lookupQ at h
  rcases hfind : l.find? (fun p => p.1 = k) with _ | ⟨a, b⟩
  · rw [hfind] at h; simp at h
  · rw [hfind] at h
    have hq : b = q := by simpa using h
    subst hq
    exact hl (a, b) (List.mem_of_find?_eq_some hfind)

/-- `round` of a non-negative rational is non-negative. -/
theorem round_nonneg_rat {q : ℚ} (h : 0 ≤ q) : 0 ≤ round q := by
  rw [round_eq]
  exact Int.le_floor.2 (by push_cast; linarith)

/-- **C2 counterexample**: with an empty pricing configuration,
`computePrice "solo" _ "standard"` is `199` (the built-in rate card), while
the claim's formula (`base` defaulting to `0` for a type absent from the
configuration) gives `0`. -/
theorem C2_computePrice_cex :
    computePrice "solo" ⟨[], []⟩ "standard" = 199 ∧
    specPriceC2 "solo" ⟨[], []⟩ "standard" = 0 ∧
    computePrice "solo" ⟨[], []⟩ "standard" ≠ specPriceC2 "solo" ⟨[], []⟩ "standard" := by
  refine ⟨?_, ?_, ?_⟩ <;>
    simp [computePrice, specPriceC2, lookupQ, RATECARD]

/-- **C2 (amended)**: `computePrice roomType pricing groupCode` equals
`round(base × mult)` where `base` is the configured base price for the type,
falling back first to the built-in rate card and only then to `0`, and
`mult` is the configured multiplier for the group code (an empty group code
is replaced by `"standard"` before the lookup), defaulting to `1.0` when the
code is not configured.  The function is total and its result is
non-negative whenever the configuration is non-negative. -/
theorem C2_computePrice_amended (t : String) (p : Pricing) (g : String) :
    computePrice t p g
      = round (((lookupQ p.base t).getD ((lookupQ RATECARD t).getD 0))
          * ((lookupQ p.groups (if g = "" then "standard" else g)).getD 1)) ∧
    ((∀ x ∈ p.base, 0 ≤ x.2) → (∀ x ∈ p.groups, 0 ≤ x.2) → 0 ≤ computePrice t p g) := by
  constructor
  · rfl
  · intro hb hg
    have hrc : ∀ x ∈ RATECARD, 0 ≤ x.2 := by
      intro x hx
      simp only [RATECARD, List.mem_cons, List.not_mem_nil, or_false] at hx
      rcases hx with rfl | rfl | rfl <;> norm_num
    have hbase : 0 ≤ (lookupQ p.base t).getD ((lookupQ RATECARD t).getD 0) := by
      rcases h1 : lookupQ p.base t with _ | q
      · rcases h2 : lookupQ RATECARD t with _ | q
        · simp
        · simpa using lookupQ_nonneg hrc h2
      · simpa using lookupQ_nonneg hb h1
    have hmult : 0 ≤ (lookupQ p.groups (if g = "" then "standard" else g)).getD 1 := by
      rcases h1 : lookupQ p.groups (if g = "" then "standard" else g) with _ | q
      · simp
      · simpa using lookupQ_nonneg hg h1
    exact round_nonneg_rat (mul_nonneg hbase hmult)

/-- Witness for the amended C2 at a concrete configuration: the configured
base `150` for `"solo"` and multiplier `7/10` for `"kulturskole"` give price
`round(150 × 0.7) = 105 ≥ 0`. -/
theorem C2_computePrice_amended_witness :
    computePrice "solo" ⟨[("solo", 150)], [("kulturskole", 7/10)]⟩ "kulturskole"
      = round ((150 : ℚ) * (7/10)) ∧
    0 ≤ computePrice "solo" ⟨[("solo", 150)], [("kulturskole", 7/10)]⟩ "kulturskole" := by
  constructor
  · have h := (C2_computePrice_amended "solo" ⟨[("solo", 150)], [("kulturskole", 7/10)]⟩
      "kulturskole").1
    rw [h]
    simp [lookupQ, RATECARD]
  · exact (C2_computePrice_amended "solo" ⟨[("solo", 150)], [("kulturskole", 7/10)]⟩
      "kulturskole").2
      (by intro x hx; simp at hx; rcases hx with rfl; norm_num)
      (by intro x hx; simp at hx; rcases hx with rfl; norm_num)

/-- **C10**: the built-in rate card holds solo ↦ 199, band ↦ 399,
preprod ↦ 799; for a room type missing from the configuration's base table
but present in the rate card, `computePrice` uses the rate-card value as the
base (not `0`); only a type absent from both yields base `0`. -/
theorem C10_computePrice_ratecard_fallback (t : String) (p : Pricing) (g : String) :
    (lookupQ RATECARD "solo" = some 199 ∧ lookupQ RATECARD "band" = some 399 ∧
      lookupQ RATECARD "preprod" = some 799) ∧
    (∀ rc, lookupQ p.base t = none → lookupQ RATECARD t = some rc →
      computePrice t p g
        = round (rc * ((lookupQ p.groups (if g = "" then "standard" else g)).getD 1))) ∧
    (lookupQ p.base t = none → lookupQ RATECARD t = none →
      computePrice t p g
        = round ((0 : ℚ) * ((lookupQ p.groups (if g = "" then "standard" else g)).getD 1))) := by
  refine ⟨⟨by simp [lookupQ, RATECARD], by simp [lookupQ, RATECARD], by simp [lookupQ, RATECARD]⟩,
    ?_, ?_⟩
  · intro rc h1 h2
    unfold computePrice
    rw [h1, h2]
    rfl
  · intro h1 h2
    unfold computePrice
    rw [h1, h2]
    rfl

/-- Witness for C10: `"solo"` absent from the configured base table but in
the rate card ⇒ price `round(199 × 0.7) = 139` (the spec's own end-to-end
number), not `0`. -/
theorem C10_computePrice_ratecard_fallback_witness :
    computePrice "solo" ⟨[], [("kulturskole", 7/10)]⟩ "kulturskole" = 139 := by
  have h := (C10_computePrice_ratecard_fallback "solo" ⟨[], [("kulturskole", 7/10)]⟩
    "kulturskole").2.1 199 (by simp [lookupQ]) (by simp [lookupQ, RATECARD])
  rw [h]
  simp [lookupQ]
  norm_num [round_eq]

/-- **C3**: `determineBookingMode` picks the admission mode by fixed priority:
`bookForOthers` wins and yields `"external"` whatever `voucherRequired` is;
otherwise `voucherRequired` yields `"voucher"`; otherwise `"open"`.  The
result is always one of the three pairwise-distinct mode strings. -/
theorem C3_determineBookingMode (vr bo : Bool) :
    determineBookingMode vr true = "external" ∧
    determineBookingMode true false = "voucher" ∧
    determineBookingMode false false = "open" ∧
    (determineBookingMode vr bo = "external" ∨ determineBookingMode vr bo = "voucher" ∨
      determineBookingMode vr bo = "open") ∧
    ("external" ≠ "voucher" ∧ "voucher" ≠ "open" ∧ "external" ≠ "open") := by
  cases vr <;> cases bo <;> decide

/-- **C4**: `adjustVoucherSlots` maps the voucher(s) matching the id to slot
count `max 0 (slots + delta)` and leaves every other entry unchanged; if all
input slot counts are non-negative every output slot count is non-negative
(the matched one is non-negative unconditionally, by the clamp); and when no
voucher carries the id the ledger is returned unchanged (a no-op). -/
theorem C4_adjustVoucherSlots (vouchers : List Voucher) (id : String) (delta : Int) :
    adjustVoucherSlots vouchers id delta
      = vouchers.map (fun v => if v.id = id then { v with slots := max 0 (v.slots + delta) } else v) ∧
    (∀ v ∈ adjustVoucherSlots vouchers id delta, v.id = id → 0 ≤ v.slots) ∧
    ((∀ v ∈ vouchers, 0 ≤ v.slots) → ∀ v ∈ adjustVoucherSlots vouchers id delta, 0 ≤ v.slots) ∧
    ((∀ v ∈ vouchers, v.id ≠ id) → adjustVoucherSlots vouchers id delta = vouchers) := by
  refine ⟨rfl, ?_, ?_, ?_⟩
  · intro v hv hid
    rcases List.mem_map.1 hv with ⟨w, hw, rfl⟩
    by_cases h : w.id = id
    · simp only [h, if_pos rfl]
      exact le_max_left 0 _
    · simp only [if_neg h] at hid ⊢
      exact absurd hid h
  · intro hnn v hv
    rcases List.mem_map.1 hv with ⟨w, hw, rfl⟩
    by_cases h : w.id = id
    · simp only [h, if_pos rfl]
      exact le_max_left 0 _
    · simpa [if_neg h] using hnn w hw
  · induction vouchers with
    | nil => intro _; rfl
    | cons v vs ih =>
      intro hnone
      have h1 : v.id ≠ id := hnone v (List.mem_cons_self v vs)
      have h2 : ∀ w ∈ vs, w.id ≠ id := fun w hw => hnone w (List.mem_cons_of_mem v hw)
      simp only [adjustVoucherSlots, List.map_cons, if_neg h1] at ih ⊢
      exact congrArg (v :: ·) (ih h2)

/-- Witness for C4 at a concrete ledger: a `-5` adjustment clamps to `0`
(non-negativity), and an unknown id is a no-op. -/
theorem C4_adjustVoucherSlots_witness :
    (∀ v ∈ adjustVoucherSlots [⟨"a", "P", 2⟩] "a" (-5), 0 ≤ v.slots) ∧
    adjustVoucherSlots [⟨"b", "Q", 3⟩] "zz" 1 = [⟨"b", "Q", 3⟩] :=
  ⟨(C4_adjustVoucherSlots [⟨"a", "P", 2⟩] "a" (-5)).2.2.1 (by decide),
   (C4_adjustVoucherSlots [⟨"b", "Q", 3⟩] "zz" 1).2.2.2 (by decide)⟩

-- ===== Claim theorems (booking store) =====

/-- An absent slot means no entry of the store carries its key. -/
theorem getBooking_eq_none_iff (s : Store) (d : Date) (r : String) (h : Nat) :
    getBooking s d r h = none ↔ ∀ e ∈ s, e.1 ≠ (d, r, h) := by
  unfold getBooking
  rw [Option.map_eq_none', List.find?_eq_none]
  simp

/-- `addBooking` preserves slot uniqueness. -/
theorem slotUnique_addBooking (s : Store) (b : Booking) (hs : SlotUnique s) :
    SlotUnique (addBooking s b) := by
  unfold addBooking
  split
  · exact hs
  · next hnone =>
    have h0 : getBooking s b.date b.roomId b.hour = none :=
      Option.not_isSome_iff_eq_none.1 hnone
    refine List.nodup_cons.2 ⟨?_, hs⟩
    intro hmem
    rcases List.mem_map.1 hmem with ⟨e, he, hek⟩
    exact (getBooking_eq_none_iff s b.date b.roomId b.hour).1 h0 e he hek

/-- `removeBooking` preserves slot uniqueness. -/
theorem slotUnique_removeBooking (s : Store) (d : Date) (r : String) (h : Nat)
    (hs : SlotUnique s) : SlotUnique (removeBooking s d r h) := by
  unfold removeBooking
  split
  · exact hs
  · exact hs.sublist ((List.eraseP_sublist s).map (fun e => e.1))

/-- Key-unique stores hold at most one entry per slot key. -/
theorem slotUnique_filter_le_one {s : Store} (hs : SlotUnique s) (k : Date × String × Nat) :
    (s.filter (fun e => e.1 = k)).length ≤ 1 := by
  induction s with
  | nil => simp
  | cons e t ih =>
    rcases List.nodup_cons.1 hs with ⟨hnot, ht⟩
    by_cases hek : e.1 = k
    · have hnil : t.filter (fun x => decide (x.1 = k)) = [] := by
        refine List.filter_eq_nil_iff.2 ?_
        intro x hx
        simp only [decide_eq_true_eq]
        intro hxk
        exact hnot (List.mem_map.2 ⟨x, hx, by simpa using hxk.trans hek.symm⟩)
      simp [List.filter_cons, hek, hnil]
    · simpa [List.filter_cons, hek] using ih ht

/-- **C1**: if the store already holds a booking at `b`'s
`(date, roomId, hour)` key, `addBooking` returns the original store
unchanged (silent, idempotent rejection); and every store reachable from the
empty store via `addBooking` / `removeBooking` holds at most one booking per
slot key. -/
theorem C1_store_unique :
    (∀ (s : Store) (b : Booking),
        (getBooking s b.date b.roomId b.hour).isSome = true → addBooking s b = s) ∧
    (∀ s : Store, ReachableStore s → ∀ k : Date × String × Nat,
        (s.filter (fun e => e.1 = k)).length ≤ 1) := by
  constructor
  · intro s b hsome
    unfold addBooking
    rw [if_pos hsome]
  · intro s hs k
    refine slotUnique_filter_le_one ?_ k
    induction hs with
    | empty => simp [SlotUnique]
    | add s b _ ih => exact slotUnique_addBooking s b ih
    | remove s d r h _ ih => exact slotUnique_removeBooking s d r h ih

/-- Witness for C1: re-inserting the sample booking into the singleton store
that already holds it is a no-op, and that (reachable) store has at most one
entry at the sample slot key. -/
theorem C1_store_unique_witness :
    addBooking (addBooking [] sampleBooking) sampleBooking = addBooking [] sampleBooking ∧
    ((addBooking [] sampleBooking).filter
        (fun e => e.1 = (⟨2025, 9, 15⟩, "s1", 10))).length ≤ 1 :=
  ⟨C1_store_unique.1 (addBooking [] sampleBooking) sampleBooking (by decide),
   C1_store_unique.2 (addBooking [] sampleBooking)
     (ReachableStore.add [] sampleBooking ReachableStore.empty) (⟨2025, 9, 15⟩, "s1", 10)⟩

/-- **C5**: deleting a booking whose stored record references a voucher
partner that exists in the ledger credits exactly that voucher by `+1`
(clamped below at `0`, no upper bound) and leaves every other ledger entry
unchanged; deleting a booking whose record has no voucher reference leaves
the ledger unchanged. -/
theorem C5_handleDelete_voucher_credit (bookings : Store) (vouchers : List Voucher)
    (d : Date) (r : String) (hr : Nat) (cell : Booking)
    (hcell : getBooking bookings d r hr = some cell) :
    (∀ p v, cell.voucherPartner = some p → p ≠ "" →
        findVoucherByPartner vouchers p = some v →
        (handleDeleteLocal bookings vouchers d r hr).2
          = vouchers.map
              (fun w => if w.id = v.id then { w with slots := max 0 (w.slots + 1) } else w)) ∧
    (cell.voucherPartner = none →
        (handleDeleteLocal bookings vouchers d r hr).2 = vouchers) := by
  constructor
  · intro p v hp hpn hv
    show handleDeleteLocalVouchers bookings vouchers d r hr = _
    simp only [handleDeleteLocalVouchers, hcell, hp, if_neg hpn, hv]
    rfl
  · intro hp
    show handleDeleteLocalVouchers bookings vouchers d r hr = vouchers
    simp only [handleDeleteLocalVouchers, hcell, hp]

/-- Witness for C5 at a concrete store and ledger: deleting the stored
booking that references partner `"Ung"` turns the ledger
`[v1 ↦ 3, v2 ↦ 5]` into `[v1 ↦ 4, v2 ↦ 5]`. -/
theorem C5_handleDelete_voucher_credit_witness :
    (handleDeleteLocal
        [((⟨2025, 9, 15⟩, "s1", 10),
          { sampleBooking with voucherPartner := some "Ung" })]
        [⟨"v1", "Ung", 3⟩, ⟨"v2", "Fritid", 5⟩] ⟨2025, 9, 15⟩ "s1" 10).2
      = [⟨"v1", "Ung", 4⟩, ⟨"v2", "Fritid", 5⟩] := by
  have h := (C5_handleDelete_voucher_credit
      [((⟨2025, 9, 15⟩, "s1", 10), { sampleBooking with voucherPartner := some "Ung" })]
      [⟨"v1", "Ung", 3⟩, ⟨"v2", "Fritid", 5⟩] ⟨2025, 9, 15⟩ "s1" 10
      { sampleBooking with voucherPartner := some "Ung" } (by decide)).1
      "Ung" ⟨"v1", "Ung", 3⟩ rfl (by decide) (by decide)
  rw [h]
  decide

-- ===== Calendar lemmas =====

/-- The Boolean leap test, arithmetically. -/
theorem isLeap_true_iff (y : Nat) :
    isLeap y = true ↔ ((y % 4 = 0 ∧ y % 100 ≠ 0) ∨ y % 400 = 0) := by
  simp [isLeap]

/-- One more year adds 366 days in a leap year, 365 otherwise. -/
theorem daysBeforeYear_succ (y : Nat) :
    daysBeforeYear (y + 1) = daysBeforeYear y + (if isLeap y then 366 else 365) := by
  have hiff := isLeap_true_iff y
  cases h : isLeap y
  · rw [h] at hiff
    simp only [Bool.false_eq_true, false_iff] at hiff
    simp only [h, if_false, Bool.false_eq_true]
    unfold daysBeforeYear leapsBefore
    omega
  · rw [h] at hiff
    simp only [true_iff] at hiff
    simp only [h, if_true]
    unfold daysBeforeYear leapsBefore
    omega

theorem one_le_daysInMonth (y m : Nat) : 1 ≤ daysInMonth y m := by
  unfold daysInMonth
  split_ifs <;> omega

/-- December's end is day 365/366 of the year. -/
theorem daysInYear_split (y : Nat) :
    daysBeforeMonth y 12 + daysInMonth y 12 = (if isLeap y then 366 else 365) := by
  cases h : isLeap y <;> simp [daysBeforeMonth, daysInMonth, h]

/-- Month-table recurrence. -/
theorem daysBeforeMonth_add (y : Nat) {m : Nat} (h1 : 1 ≤ m) (h2 : m ≤ 11) :
    daysBeforeMonth y (m + 1) = daysBeforeMonth y m + daysInMonth y m := by
  interval_cases m <;> cases h : isLeap y <;> simp [daysBeforeMonth, daysInMonth, h]

/-- Any day offset of an earlier month lies strictly before a later month's
start. -/
theorem daysBeforeMonth_lt (y : Nat) {m1 m2 d1 : Nat} (h1 : 1 ≤ m1) (hlt : m1 < m2)
    (h2 : m2 ≤ 12) (hd : d1 ≤ daysInMonth y m1) :
    daysBeforeMonth y m1 + (d1 - 1) < daysBeforeMonth y m2 := by
  have h1a : m1 ≤ 11 := by omega
  interval_cases m1 <;> interval_cases m2 <;> cases h : isLeap y <;>
    simp_all [daysBeforeMonth, daysInMonth] <;> omega

/-- Every day of year `y` comes strictly before year `y + 1`. -/
theorem dayIndex_lt_nextYear {dt : Date} (h : dt.Valid) :
    dayIndex dt < daysBeforeYear (dt.y + 1) := by
  obtain ⟨hy, hm1, hm2, hd1, hd2⟩ := h
  have h12 : daysBeforeMonth dt.y dt.m + (dt.d - 1)
      < daysBeforeMonth dt.y 12 + daysInMonth dt.y 12 := by
    rcases Nat.lt_or_ge dt.m 12 with hlt | hge
    · have hstep := daysBeforeMonth_lt dt.y hm1 hlt (le_refl 12) hd2
      have hpos := one_le_daysInMonth dt.y 12
      omega
    · have hm : dt.m = 12 := by omega
      rw [hm] at hd2
      rw [hm]
      omega
  have hsucc := daysBeforeYear_succ dt.y
  have hsplit := daysInYear_split dt.y
  unfold dayIndex
  cases hL : isLeap dt.y <;> rw [hL] at hsucc hsplit <;> simp at hsucc hsplit <;> omega

theorem daysBeforeYear_mono {y1 y2 : Nat} (h : y1 ≤ y2) :
    daysBeforeYear y1 ≤ daysBeforeYear y2 := by
  induction y2, h using Nat.le_induction with
  | base => exact le_rfl
  | succ n hn ih =>
    have hs := daysBeforeYear_succ n
    cases hL : isLeap n <;> rw [hL] at hs <;> simp at hs <;> omega

/-- `dayIndex` is strictly monotone with respect to the lexicographic
(year, month, day) order on valid dates. -/
theorem dayIndex_lt_of_lt {a b : Date} (ha : a.Valid) (hb : b.Valid)
    (h : a.y < b.y ∨ (a.y = b.y ∧ (a.m < b.m ∨ (a.m = b.m ∧ a.d < b.d)))) :
    dayIndex a < dayIndex b := by
  obtain ⟨hay, ham1, ham2, had1, had2⟩ := ha
  obtain ⟨hby, hbm1, hbm2, hbd1, hbd2⟩ := hb
  rcases h with hy | ⟨hy, hm | ⟨hm, hd⟩⟩
  · have h1 : dayIndex a < daysBeforeYear (a.y + 1) :=
      dayIndex_lt_nextYear ⟨hay, ham1, ham2, had1, had2⟩
    have h2 : daysBeforeYear (a.y + 1) ≤ daysBeforeYear b.y := daysBeforeYear_mono hy
    have h3 : daysBeforeYear b.y ≤ dayIndex b := by unfold dayIndex; omega
    omega
  · have hstep := daysBeforeMonth_lt a.y ham1 hm hbm2 had2
    unfold dayIndex
    rw [← hy]
    omega
  · unfold dayIndex
    rw [← hy, ← hm]
    omega

/-- On valid dates, the lexicographic order (= ISO string comparison) agrees
with day-number order. -/
theorem dateLexLE_iff {a b : Date} (ha : a.Valid) (hb : b.Valid) :
    dateLexLE a b ↔ dayIndex a ≤ dayIndex b := by
  constructor
  · intro h
    by_cases heq : a = b
    · rw [heq]
    · have hstrict : a.y < b.y ∨ (a.y = b.y ∧ (a.m < b.m ∨ (a.m = b.m ∧ a.d < b.d))) := by
        unfold dateLexLE at h
        have hne : ¬ (a.y = b.y ∧ a.m = b.m ∧ a.d = b.d) := by
          intro hc
          exact heq (by cases a; cases b; simp_all)
        omega
      exact le_of_lt (dayIndex_lt_of_lt ha hb hstrict)
  · intro h
    by_contra hnot
    have hstrict : b.y < a.y ∨ (b.y = a.y ∧ (b.m < a.m ∨ (b.m = a.m ∧ b.d < a.d))) := by
      unfold dateLexLE at hnot
      omega
    exact absurd (dayIndex_lt_of_lt hb ha hstrict) (by omega)

/-- The calendar successor of a valid date is valid and advances the day
number by exactly one. -/
theorem nextDate_spec {dt : Date} (h : dt.Valid) :
    (nextDate dt).Valid ∧ dayIndex (nextDate dt) = dayIndex dt + 1 := by
  obtain ⟨Y, M, D⟩ := dt
  simp only [Date.Valid] at h
  obtain ⟨hy, hm1, hm2, hd1, hd2⟩ := h
  by_cases h1 : D < daysInMonth Y M
  · have he : nextDate ⟨Y, M, D⟩ = ⟨Y, M, D + 1⟩ := by simp [nextDate, h1]
    rw [he]
    simp only [Date.Valid, dayIndex]
    refine ⟨⟨hy, hm1, hm2, by omega, by omega⟩, by omega⟩
  · by_cases h2 : M < 12
    · have he : nextDate ⟨Y, M, D⟩ = ⟨Y, M + 1, 1⟩ := by simp [nextDate, h1, h2]
      rw [he]
      simp only [Date.Valid, dayIndex]
      have hadd := daysBeforeMonth_add Y hm1 (by omega)
      refine ⟨⟨hy, by omega, by omega, le_refl 1, one_le_daysInMonth Y (M + 1)⟩, by omega⟩
    · have hm : M = 12 := by omega
      subst hm
      have he : nextDate ⟨Y, 12, D⟩ = ⟨Y + 1, 1, 1⟩ := by simp [nextDate, h1]
      rw [he]
      have h31 : daysInMonth Y 12 = 31 := by simp [daysInMonth]
      have hd : D = 31 := by omega
      subst hd
      have hsucc := daysBeforeYear_succ Y
      have hsplit := daysInYear_split Y
      simp only [Date.Valid, dayIndex]
      have hb1 : daysBeforeMonth (Y + 1) 1 = 0 := rfl
      have hb12 : daysBeforeMonth Y 12 = 334 + (if isLeap Y then 1 else 0) := rfl
      refine ⟨⟨by omega, by norm_num, by norm_num, by norm_num, by simp [daysInMonth]⟩, ?_⟩
      cases hL : isLeap Y <;> rw [hL] at hsucc hsplit hb12 <;>
        simp at hsucc hsplit hb12 <;> omega

/-- The calendar predecessor of a valid date other than 0001-01-01 is valid
and `nextDate` undoes it. -/
theorem prevDate_spec {dt : Date} (h : dt.Valid) (hne : dt ≠ ⟨1, 1, 1⟩) :
    (prevDate dt).Valid ∧ nextDate (prevDate dt) = dt := by
  obtain ⟨Y, M, D⟩ := dt
  simp only [Date.Valid] at h
  obtain ⟨hy, hm1, hm2, hd1, hd2⟩ := h
  by_cases h1 : 1 < D
  · have he : prevDate ⟨Y, M, D⟩ = ⟨Y, M, D - 1⟩ := by simp [prevDate, h1]
    rw [he]
    constructor
    · simp only [Date.Valid]
      exact ⟨hy, hm1, hm2, by omega, by omega⟩
    · have hn : nextDate ⟨Y, M, D - 1⟩ = ⟨Y, M, D - 1 + 1⟩ := by
        simp [nextDate]
        omega
      rw [hn]
      simp only [Date.mk.injEq, and_true, true_and]
      omega
  · have hd : D = 1 := by omega
    subst hd
    by_cases h2 : 1 < M
    · have he : prevDate ⟨Y, M, 1⟩ = ⟨Y, M - 1, daysInMonth Y (M - 1)⟩ := by
        simp [prevDate, h2]
      rw [he]
      have hpos := one_le_daysInMonth Y (M - 1)
      constructor
      · simp only [Date.Valid]
        exact ⟨hy, by omega, by omega, hpos, le_refl _⟩
      · have hn : nextDate ⟨Y, M - 1, daysInMonth Y (M - 1)⟩ = ⟨Y, M - 1 + 1, 1⟩ := by
          simp [nextDate]
          omega
        rw [hn]
        simp only [Date.mk.injEq, and_true, true_and]
        omega
    · have hm : M = 1 := by omega
      subst hm
      have hy2 : 2 ≤ Y := by
        rcases Nat.lt_or_ge Y 2 with hlt | hge
        · exact absurd (by omega : Y = 1) (fun hc => hne (by rw [hc]))
        · exact hge
      have he : prevDate ⟨Y, 1, 1⟩ = ⟨Y - 1, 12, 31⟩ := by simp [prevDate]
      rw [he]
      have h31 : daysInMonth (Y - 1) 12 = 31 := by simp [daysInMonth]
      constructor
      · simp only [Date.Valid]
        exact ⟨by omega, by norm_num, by norm_num, by norm_num, by rw [h31]⟩
      · have hn : nextDate ⟨Y - 1, 12, 31⟩ = ⟨Y - 1 + 1, 1, 1⟩ := by
          simp [nextDate, h31]
        rw [hn]
        simp only [Date.mk.injEq, and_true, true_and]
        omega

/-- Iterating `nextDate` `k` times adds `k` to the day number. -/
theorem nextDate_iterate {dt : Date} (h : dt.Valid) (k : Nat) :
    (nextDate^[k] dt).Valid ∧ dayIndex (nextDate^[k] dt) = dayIndex dt + k := by
  induction k with
  | zero => exact ⟨h, rfl⟩
  | succ n ih =>
    rw [Function.iterate_succ_apply']
    obtain ⟨hv, hidx⟩ := ih
    obtain ⟨hv2, hidx2⟩ := nextDate_spec hv
    exact ⟨hv2, by omega⟩

/-- Every valid date (year ≥ 1) has day number at least 366. -/
theorem dayIndex_ge_366 {dt : Date} (h : dt.Valid) : 366 ≤ dayIndex dt := by
  obtain ⟨hy, hm1, hm2, hd1, hd2⟩ := h
  have : 366 ≤ daysBeforeYear dt.y := by
    have h1 : daysBeforeYear 1 = 366 := by decide
    have := daysBeforeYear_mono hy
    omega
  unfold dayIndex
  omega

theorem dayIndex_base : dayIndex ⟨1, 1, 1⟩ = 366 := by decide

/-- Iterating `prevDate` `k` times from a date at least `k` days after
0001-01-01 is valid and subtracts `k` from the day number. -/
theorem prevDate_iterate {dt : Date} (h : dt.Valid) (k : Nat) (hk : 366 + k ≤ dayIndex dt) :
    (prevDate^[k] dt).Valid ∧ dayIndex (prevDate^[k] dt) + k = dayIndex dt := by
  induction k generalizing dt with
  | zero => exact ⟨h, rfl⟩
  | succ n ih =>
    rw [Function.iterate_succ_apply]
    have hne : dt ≠ ⟨1, 1, 1⟩ := by
      intro hdt
      rw [hdt, dayIndex_base] at hk
      omega
    obtain ⟨hv, hnd⟩ := prevDate_spec h hne
    have hidx : dayIndex (prevDate dt) + 1 = dayIndex dt := by
      have hstep := (nextDate_spec hv).2
      rw [hnd] at hstep
      omega
    obtain ⟨hv2, hidx2⟩ := ih hv (by omega)
    exact ⟨hv2, by omega⟩

/-- The `while (d <= endISO)` loop of `eachDateISO` visits exactly the days
of the inclusive range when given enough fuel. -/
theorem eachDateAux_length {e : Date} (he : e.Valid) :
    ∀ (fuel : Nat) (d : Date), d.Valid → fuel = dayIndex e + 1 - dayIndex d →
      (eachDateAux fuel d e).length = fuel := by
  intro fuel
  induction fuel with
  | zero => intro d _ _; rfl
  | succ n ih =>
    intro d hd hf
    have hle : dayIndex d ≤ dayIndex e := by omega
    have hlex : dateLexLE d e := (dateLexLE_iff hd he).2 hle
    unfold eachDateAux
    rw [if_pos hlex]
    obtain ⟨hv, hidx⟩ := nextDate_spec hd
    have hrec := ih (nextDate d) hv (by omega)
    simp [hrec]

/-- Length of `eachDateISO` on a valid range: the inclusive day count. -/
theorem eachDateISO_length {s e : Date} (hs : s.Valid) (he : e.Valid) :
    (eachDateISO s e).length = dayIndex e + 1 - dayIndex s :=
  eachDateAux_length he _ s hs rfl

-- ===== Claim theorems (dates / range aggregation) =====

/-- **C9**: for every valid date, the computed week range
`[startOfWeekISO, endOfWeekISO]` is Monday through Sunday of the calendar
week containing it: the start is valid and falls on a Monday
(`getUTCDay = 1`), the end is valid, falls on a Sunday (`getUTCDay = 0`) and
has day number exactly six greater, and start ≤ date ≤ end in the date-only
ISO-string (lexicographic) order. -/
theorem C9_week_range (dt : Date) (h : dt.Valid) :
    (startOfWeekISO dt).Valid ∧
    dayOfWeek (startOfWeekISO dt) = 1 ∧
    (endOfWeekISO dt).Valid ∧
    dayOfWeek (endOfWeekISO dt) = 0 ∧
    dayIndex (endOfWeekISO dt) = dayIndex (startOfWeekISO dt) + 6 ∧
    dateLexLE (startOfWeekISO dt) dt ∧
    dateLexLE dt (endOfWeekISO dt) := by
  have h366 := dayIndex_ge_366 h
  have hw7 : dayOfWeek dt < 7 := Nat.mod_lt _ (by norm_num)
  have hstart0 : startOfWeekISO dt
      = addDaysISO dt (if dayOfWeek dt = 0 then (-6 : Int) else 1 - (dayOfWeek dt : Int)) := rfl
  have hmod0 : (dayIndex dt + 6) % 7 = dayOfWeek dt := rfl
  obtain ⟨k, hk6, hkst, hk366, hkmod⟩ :
      ∃ k : Nat, k ≤ 6 ∧ startOfWeekISO dt = prevDate^[k] dt ∧
        366 + k ≤ dayIndex dt ∧ (dayIndex dt - k + 6) % 7 = 1 := by
    by_cases hw : dayOfWeek dt = 0
    · refine ⟨6, le_refl 6, ?_, by omega, by omega⟩
      rw [hstart0, hw, if_pos rfl]
      unfold addDaysISO
      rw [if_neg (by norm_num : ¬ (0 : Int) ≤ -6)]
      have h6 : ((-(-6 : Int)).toNat) = 6 := by decide
      rw [h6]
    · by_cases hw1 : dayOfWeek dt = 1
      · refine ⟨0, by omega, ?_, by omega, by omega⟩
        rw [hstart0, hw1, if_neg (by norm_num : ¬ (1 : Nat) = 0)]
        unfold addDaysISO
        rw [if_pos (by norm_num : (0 : Int) ≤ 1 - ((1 : Nat) : Int))]
        have ht : ((1 : Int) - ((1 : Nat) : Int)).toNat = 0 := by norm_num
        rw [ht]
        rfl
      · have hge2 : 2 ≤ dayOfWeek dt := by omega
        refine ⟨dayOfWeek dt - 1, by omega, ?_, by omega, by omega⟩
        rw [hstart0, if_neg hw]
        have hneg : ¬ (0 ≤ 1 - (dayOfWeek dt : Int)) := by omega
        unfold addDaysISO
        rw [if_neg hneg]
        have htn : (-(1 - (dayOfWeek dt : Int))).toNat = dayOfWeek dt - 1 := by omega
        rw [htn]
  obtain ⟨hvs, hvidx⟩ := prevDate_iterate h k hk366
  have hend : endOfWeekISO dt = nextDate^[6] (startOfWeekISO dt) := by
    unfold endOfWeekISO addDaysISO
    rw [if_pos (by norm_num : (0 : Int) ≤ 6)]
    have h6 : ((6 : Int)).toNat = 6 := by decide
    rw [h6]
  rw [hkst] at hend
  obtain ⟨hve, hvidxe⟩ := nextDate_iterate hvs 6
  rw [hkst]
  refine ⟨hvs, ?_, ?_, ?_, ?_, ?_, ?_⟩
  · show (dayIndex (prevDate^[k] dt) + 6) % 7 = 1
    have hidxs : dayIndex (prevDate^[k] dt) = dayIndex dt - k := by omega
    rw [hidxs]
    exact hkmod
  · rw [hend]
    exact hve
  · rw [hend]
    show (dayIndex (nextDate^[6] (prevDate^[k] dt)) + 6) % 7 = 0
    rw [hvidxe]
    have hidxs : dayIndex (prevDate^[k] dt) = dayIndex dt - k := by omega
    rw [hidxs]
    omega
  · rw [hend]
    exact hvidxe
  · exact (dateLexLE_iff hvs h).2 (by omega)
  · rw [hend]
    exact (dateLexLE_iff h hve).2 (by omega)

/-- Witness for C9 at 2025-09-18 (a Thursday): its week range is the Monday
2025-09-15 through Sunday 2025-09-21. -/
theorem C9_week_range_witness :
    (startOfWeekISO ⟨2025, 9, 18⟩).Valid ∧
    dayOfWeek (startOfWeekISO ⟨2025, 9, 18⟩) = 1 ∧
    (endOfWeekISO ⟨2025, 9, 18⟩).Valid ∧
    dayOfWeek (endOfWeekISO ⟨2025, 9, 18⟩) = 0 ∧
    dayIndex (endOfWeekISO ⟨2025, 9, 18⟩) = dayIndex (startOfWeekISO ⟨2025, 9, 18⟩) + 6 ∧
    dateLexLE (startOfWeekISO ⟨2025, 9, 18⟩) ⟨2025, 9, 18⟩ ∧
    dateLexLE ⟨2025, 9, 18⟩ (endOfWeekISO ⟨2025, 9, 18⟩) :=
  C9_week_range ⟨2025, 9, 18⟩ (by decide)

/-- **C6 counterexample**: `computeUtilizationRange` counts every record of
the supplied range map, not only those inside `[startDate, endDate]`: a map
holding one record dated 2025-09-20 against the one-day interval
[2025-09-15, 2025-09-15] yields `booked = 1`, while the count of records
whose slot falls in the range is `0`. -/
theorem C6_computeUtilizationRange_cex :
    (computeUtilizationRange [((⟨2025, 9, 20⟩, "r1", 10), sampleBooking)]
        [⟨"r1", "R", "solo"⟩] ⟨2025, 9, 15⟩ ⟨2025, 9, 15⟩).booked = 1 ∧
    (filterRangeLocal [((⟨2025, 9, 20⟩, "r1", 10), sampleBooking)]
        ⟨2025, 9, 15⟩ ⟨2025, 9, 15⟩).length = 0 :=
  ⟨rfl, rfl⟩

/-- **C6 (amended)**: when every record of the supplied range map falls
inside the inclusive interval — as the callers guarantee by pre-filtering —
`computeUtilizationRange` returns `total = rooms.length × HOURS_PER_DAY ×
(number of days in the inclusive interval)`, `booked` = the count of records
whose `(date, room, hour)` falls in the range (each record counted exactly
once), and `utilization = booked/total × 100` with `total = 0` yielding
`0`. -/
theorem C6_computeUtilizationRange_amended (rangeMap : Store) (rooms : List Room) (s e : Date)
    (hs : s.Valid) (he : e.Valid)
    (hin : ∀ x ∈ rangeMap, dateLexLE s x.1.1 ∧ dateLexLE x.1.1 e) :
    (computeUtilizationRange rangeMap rooms s e).total
        = rooms.length * HOURS_PER_DAY * (dayIndex e + 1 - dayIndex s) ∧
    (computeUtilizationRange rangeMap rooms s e).booked
        = (filterRangeLocal rangeMap s e).length ∧
    (computeUtilizationRange rangeMap rooms s e).utilization
        = (if (computeUtilizationRange rangeMap rooms s e).total = 0 then 0
           else ((computeUtilizationRange rangeMap rooms s e).booked : ℚ)
             / ((computeUtilizationRange rangeMap rooms s e).total : ℚ) * 100) := by
  have hfilter : filterRangeLocal rangeMap s e = rangeMap := by
    unfold filterRangeLocal
    apply List.filter_eq_self.2
    intro x hx
    obtain ⟨h1, h2⟩ := hin x hx
    simp [h1, h2]
  refine ⟨?_, ?_, rfl⟩
  · show rooms.length * HOURS_PER_DAY * (eachDateISO s e).length = _
    rw [eachDateISO_length hs he]
  · rw [hfilter]
    rfl

/-- Witness for the amended C6: one in-range record, one room, over the
seven-day week 2025-09-15..21. -/
theorem C6_computeUtilizationRange_amended_witness :
    (computeUtilizationRange [((⟨2025, 9, 15⟩, "r1", 10), sampleBooking)]
        [⟨"r1", "R", "solo"⟩] ⟨2025, 9, 15⟩ ⟨2025, 9, 21⟩).total
        = [(⟨"r1", "R", "solo"⟩ : Room)].length * HOURS_PER_DAY
            * (dayIndex ⟨2025, 9, 21⟩ + 1 - dayIndex ⟨2025, 9, 15⟩) ∧
    (computeUtilizationRange [((⟨2025, 9, 15⟩, "r1", 10), sampleBooking)]
        [⟨"r1", "R", "solo"⟩] ⟨2025, 9, 15⟩ ⟨2025, 9, 21⟩).booked
        = (filterRangeLocal [((⟨2025, 9, 15⟩, "r1", 10), sampleBooking)]
            ⟨2025, 9, 15⟩ ⟨2025, 9, 21⟩).length ∧
    (computeUtilizationRange [((⟨2025, 9, 15⟩, "r1", 10), sampleBooking)]
        [⟨"r1", "R", "solo"⟩] ⟨2025, 9, 15⟩ ⟨2025, 9, 21⟩).utilization
        = (if (computeUtilizationRange [((⟨2025, 9, 15⟩, "r1", 10), sampleBooking)]
              [⟨"r1", "R", "solo"⟩] ⟨2025, 9, 15⟩ ⟨2025, 9, 21⟩).total = 0 then 0
           else ((computeUtilizationRange [((⟨2025, 9, 15⟩, "r1", 10), sampleBooking)]
              [⟨"r1", "R", "solo"⟩] ⟨2025, 9, 15⟩ ⟨2025, 9, 21⟩).booked : ℚ)
             / ((computeUtilizationRange [((⟨2025, 9, 15⟩, "r1", 10), sampleBooking)]
              [⟨"r1", "R", "solo"⟩] ⟨2025, 9, 15⟩ ⟨2025, 9, 21⟩).total : ℚ) * 100) :=
  C6_computeUtilizationRange_amended [((⟨2025, 9, 15⟩, "r1", 10), sampleBooking)]
    [⟨"r1", "R", "solo"⟩] ⟨2025, 9, 15⟩ ⟨2025, 9, 21⟩ (by decide) (by decide) (by decide)

-- ===== Claim theorems (daily stats) =====

/-- The inner `for (h of hours)` loop of `computeStats` adds to any
accumulator the count, price sum and item list of the given room's booked
slots. -/
theorem computeStats_hoursFold (bookings : Store) (d : Date) (room : Room) :
    ∀ (hs : List Nat) (acc : Nat × ℚ × List Booking),
      hs.foldl (fun acc h =>
          match getBooking bookings d room.id h with
          | some item => (acc.1 + 1, acc.2.1 + slotPrice room item, acc.2.2 ++ [item])
          | none => acc) acc
        = (acc.1 + (hs.filterMap (fun h => getBooking bookings d room.id h)).length,
           acc.2.1 + ((hs.filterMap (fun h => getBooking bookings d room.id h)).map
              (slotPrice room)).sum,
           acc.2.2 ++ hs.filterMap (fun h => getBooking bookings d room.id h)) := by
  intro hs
  induction hs with
  | nil => intro acc; simp
  | cons h t ih =>
    intro acc
    rw [List.foldl_cons, List.filterMap_cons]
    cases hg : getBooking bookings d room.id h with
    | none => rw [ih]
    | some item =>
      rw [ih]
      simp only [List.length_cons, List.map_cons, List.sum_cons, Prod.mk.injEq]
      refine ⟨by omega, by ring, by simp⟩

/-- The outer `for (room of rooms)` loop of `computeStats`, in terms of the
day's booked slots. -/
theorem computeStats_roomsFold (bookings : Store) (d : Date) :
    ∀ (rooms : List Room) (acc : Nat × ℚ × List Booking),
      rooms.foldl (fun acc room =>
        hoursArray.foldl (fun acc h =>
          match getBooking bookings d room.id h with
          | some item => (acc.1 + 1, acc.2.1 + slotPrice room item, acc.2.2 ++ [item])
          | none => acc) acc) acc
      = (acc.1 + (daySlots bookings d rooms).length,
         acc.2.1 + ((daySlots bookings d rooms).map (fun rb => slotPrice rb.1 rb.2)).sum,
         acc.2.2 ++ (daySlots bookings d rooms).map (fun rb => rb.2)) := by
  intro rooms
  induction rooms with
  | nil => intro acc; simp [daySlots]
  | cons room rs ih =>
    intro acc
    rw [List.foldl_cons, computeStats_hoursFold, ih]
    unfold daySlots
    rw [List.flatMap_cons]
    have hpairs : hoursArray.filterMap
        (fun h => (getBooking bookings d room.id h).map (fun item => (room, item)))
        = (hoursArray.filterMap (fun h => getBooking bookings d room.id h)).map
            (fun item => (room, item)) := by
      rw [List.map_filterMap]
    rw [hpairs]
    simp only [List.length_append, List.length_map, List.map_append, List.map_map,
      List.sum_append, Prod.mk.injEq]
    have hfun : ((fun rb => slotPrice rb.1 rb.2) ∘ fun item => (room, item))
        = slotPrice room := by
      funext item
      rfl
    have hfun2 : ((fun rb : Room × Booking => rb.2) ∘ fun item => (room, item))
        = fun item : Booking => item := by
      funext item
      rfl
    rw [hfun, hfun2]
    refine ⟨by omega, by ring, by simp⟩

/-- **C7**: the daily revenue computed by `computeStats` equals the sum over
the day's booked slots of the slot's stored price, where a slot lacking a
stored price contributes the base rate-card price for its room's type
(`slotPrice`); the today-list is exactly the day's booked slots, and the
computation is total. -/
theorem C7_computeStats_revenue (bookings : Store) (d : Date) (rooms : List Room)
    (energy : Energy) :
    (computeStats bookings d rooms energy).revenueToday
      = ((daySlots bookings d rooms).map (fun rb => slotPrice rb.1 rb.2)).sum ∧
    (computeStats bookings d rooms energy).todayList
      = (daySlots bookings d rooms).map (fun rb => rb.2) ∧
    (∀ rb ∈ daySlots bookings d rooms, rb.2.priceNOK = none →
      slotPrice rb.1 rb.2 = (lookupQ RATECARD rb.1.type).getD 0) := by
  have hfold := computeStats_roomsFold bookings d rooms ((0 : Nat), (0 : ℚ), ([] : List Booking))
  refine ⟨?_, ?_, ?_⟩
  · simp only [computeStats]
    rw [hfold]
    simp
  · simp only [computeStats]
    rw [hfold]
    simp
  · intro rb _ hnone
    unfold slotPrice
    rw [hnone]

/-- Witness for C7: a day with one priced solo slot (139) and one legacy
band slot without a stored price; the legacy slot falls back to the band
rate card. -/
theorem C7_computeStats_revenue_witness :
    (computeStats
        [((⟨2025, 9, 15⟩, "s1", 10), { sampleBooking with priceNOK := some 139 }),
         ((⟨2025, 9, 15⟩, "b1", 12), { sampleBooking with roomId := "b1", type := "band" })]
        ⟨2025, 9, 15⟩ [⟨"s1", "Solo 1", "solo"⟩, ⟨"b1", "Band 1", "band"⟩]
        ⟨3, 9/2, 7, 88/100⟩).revenueToday
      = ((daySlots
        [((⟨2025, 9, 15⟩, "s1", 10), { sampleBooking with priceNOK := some 139 }),
         ((⟨2025, 9, 15⟩, "b1", 12), { sampleBooking with roomId := "b1", type := "band" })]
        ⟨2025, 9, 15⟩ [⟨"s1", "Solo 1", "solo"⟩, ⟨"b1", "Band 1", "band"⟩]).map
          (fun rb => slotPrice rb.1 rb.2)).sum ∧
    slotPrice ⟨"b1", "Band 1", "band"⟩ { sampleBooking with roomId := "b1", type := "band" }
      = (lookupQ RATECARD (⟨"b1", "Band 1", "band"⟩ : Room).type).getD 0 :=
  ⟨(C7_computeStats_revenue
      [((⟨2025, 9, 15⟩, "s1", 10), { sampleBooking with priceNOK := some 139 }),
       ((⟨2025, 9, 15⟩, "b1", 12), { sampleBooking with roomId := "b1", type := "band" })]
      ⟨2025, 9, 15⟩ [⟨"s1", "Solo 1", "solo"⟩, ⟨"b1", "Band 1", "band"⟩]
      ⟨3, 9/2, 7, 88/100⟩).1,
   (C7_computeStats_revenue
      [((⟨2025, 9, 15⟩, "s1", 10), { sampleBooking with priceNOK := some 139 }),
       ((⟨2025, 9, 15⟩, "b1", 12), { sampleBooking with roomId := "b1", type := "band" })]
      ⟨2025, 9, 15⟩ [⟨"s1", "Solo 1", "solo"⟩, ⟨"b1", "Band 1", "band"⟩]
      ⟨3, 9/2, 7, 88/100⟩).2.2
      (⟨"b1", "Band 1", "band"⟩, { sampleBooking with roomId := "b1", type := "band" })
      (by decide) rfl⟩

/-- `computeBaselineEnergy` returns the weighted baseline unless that
baseline is zero, in which case it falls back to the unweighted average of
the three coefficients (this is the JS `base || average` semantics). -/
theorem computeBaselineEnergy_eq (stats : Stats) :
    computeBaselineEnergy stats
      = (if weightedBaseline stats = 0
         then (stats.energy.solo + stats.energy.band + stats.energy.preprod) / 3
         else weightedBaseline stats) := by
  by_cases h0 : stats.todayList.length = 0
  · have hnil := List.length_eq_zero.1 h0
    simp [computeBaselineEnergy, weightedBaseline, hnil, typeCount]
  · simp [computeBaselineEnergy, weightedBaseline, h0]

/-- **C8 counterexample**: a day with one booked solo slot (so not zero
booked slots) and energy coefficients solo = 0, band = 6, preprod = 0: the
weighted average of the coefficients is 0, but the computed baseline is the
unweighted average 2 — the fallback fires whenever the weighted average is
zero, not only on empty days. -/
theorem C8_computeBaselineEnergy_cex :
    (computeStats [((⟨2025, 9, 15⟩, "r1", 10), { sampleBooking with roomId := "r1" })]
        ⟨2025, 9, 15⟩ [⟨"r1", "R", "solo"⟩] ⟨0, 6, 0, 1⟩).todayList.length = 1 ∧
    computeBaselineEnergy
        (computeStats [((⟨2025, 9, 15⟩, "r1", 10), { sampleBooking with roomId := "r1" })]
          ⟨2025, 9, 15⟩ [⟨"r1", "R", "solo"⟩] ⟨0, 6, 0, 1⟩) = 2 ∧
    weightedBaseline
        (computeStats [((⟨2025, 9, 15⟩, "r1", 10), { sampleBooking with roomId := "r1" })]
          ⟨2025, 9, 15⟩ [⟨"r1", "R", "solo"⟩] ⟨0, 6, 0, 1⟩) = 0 := by
  have ht : (computeStats [((⟨2025, 9, 15⟩, "r1", 10), { sampleBooking with roomId := "r1" })]
      ⟨2025, 9, 15⟩ [⟨"r1", "R", "solo"⟩] ⟨0, 6, 0, 1⟩).todayList
      = [{ sampleBooking with roomId := "r1" }] := by decide
  have he : (computeStats [((⟨2025, 9, 15⟩, "r1", 10), { sampleBooking with roomId := "r1" })]
      ⟨2025, 9, 15⟩ [⟨"r1", "R", "solo"⟩] ⟨0, 6, 0, 1⟩).energy = ⟨0, 6, 0, 1⟩ := rfl
  have hsolo : typeCount [{ sampleBooking with roomId := "r1" }] "solo" = 1 := by decide
  have hband : typeCount [{ sampleBooking with roomId := "r1" }] "band" = 0 := by decide
  have hpre : typeCount [{ sampleBooking with roomId := "r1" }] "preprod" = 0 := by decide
  have hlen : ([{ sampleBooking with roomId := "r1" }] : List Booking).length = 1 := by decide
  refine ⟨by rw [ht, hlen], ?_, ?_⟩
  · unfold computeBaselineEnergy
    rw [ht, he, hsolo, hband, hpre, hlen]
    norm_num
  · unfold weightedBaseline
    rw [ht, he, hsolo, hband, hpre, hlen]
    norm_num

/-- **C8 (amended)**: the daily baseline equals the booked-slot-weighted
average of the per-type energy coefficients whenever that weighted average
is nonzero; whenever the weighted average is zero — in particular on a day
with zero booked slots — it equals the unweighted average of the three
coefficients.  The result is always a well-defined rational. -/
theorem C8_computeBaselineEnergy_amended (stats : Stats) :
    (stats.todayList = [] →
        computeBaselineEnergy stats
          = (stats.energy.solo + stats.energy.band + stats.energy.preprod) / 3) ∧
    (weightedBaseline stats ≠ 0 → computeBaselineEnergy stats = weightedBaseline stats) ∧
    (weightedBaseline stats = 0 →
        computeBaselineEnergy stats
          = (stats.energy.solo + stats.energy.band + stats.energy.preprod) / 3) := by
  have h := computeBaselineEnergy_eq stats
  refine ⟨?_, ?_, ?_⟩
  · intro hnil
    have h0 : weightedBaseline stats = 0 := by
      simp [weightedBaseline, hnil, typeCount]
    rw [h, if_pos h0]
  · intro hne
    rw [h, if_neg hne]
  · intro h0
    rw [h, if_pos h0]

/-- Witness for the amended C8: with the default coefficients, a day with
one solo booking has baseline = its (nonzero) weighted average, and an
empty day has baseline `(3 + 4.5 + 7)/3`. -/
theorem C8_computeBaselineEnergy_amended_witness :
    computeBaselineEnergy ⟨0, 0, 0, 0, ⟨3, 9/2, 7, 88/100⟩, [sampleBooking]⟩
      = weightedBaseline ⟨0, 0, 0, 0, ⟨3, 9/2, 7, 88/100⟩, [sampleBooking]⟩ ∧
    computeBaselineEnergy ⟨0, 0, 0, 0, ⟨3, 9/2, 7, 88/100⟩, []⟩
      = ((3 : ℚ) + 9/2 + 7) / 3 :=
  ⟨(C8_computeBaselineEnergy_amended ⟨0, 0, 0, 0, ⟨3, 9/2, 7, 88/100⟩, [sampleBooking]⟩).2.1
      (by
        have hsolo : typeCount [sampleBooking] "solo" = 1 := by decide
        have hband : typeCount [sampleBooking] "band" = 0 := by decide
        have hpre : typeCount [sampleBooking] "preprod" = 0 := by decide
        norm_num [weightedBaseline, hsolo, hband, hpre]),
   (C8_computeBaselineEnergy_amended ⟨0, 0, 0, 0, ⟨3, 9/2, 7, 88/100⟩, []⟩).1 rfl⟩
